import Mathlib

/-!
Verification of the subtitle-formatting core of `src/main.py`
(functions `format_time` and `save_srt`).

Python floating-point values are embedded as the exact rational numbers
they denote.  Two models of the arithmetic are provided:

* an exact-arithmetic model (`format_time`, `save_srt`), in which every
  operation is computed exactly over `ℚ`; this matches the specification,
  which describes the fields with exact mathematical floor formulas; and
* an IEEE-binary64 model (`format_time_fl`), in which every Python float
  operation rounds its exact result to 53 significant bits, round to
  nearest, ties to even (`roundD`), with an unbounded exponent range
  (overflow and subnormals do not arise at the magnitudes considered).
  A Python decimal literal such as `5.007` denotes `roundD (5007/1000)`.

Python integer/float primitives used by the source:
* `x // y` on floats is the floor of the exact quotient, returned as a
  float (`pyFloorDiv`, `pyFloorDivFl`);
* `x % y` on floats has the sign of the divisor `y` (`pyMod`, `pyModFl`);
* `int x` truncates toward zero (`pyTrunc`);
* an f-string field `0N` zero-pads to a minimum total width N, the sign
  included (`formatIntPad`);
* `str.strip()` removes leading and trailing whitespace (`pyStrip`).
-/

/-- Python float `x // y` (floor division), exact-arithmetic model. -/
def pyFloorDiv (a b : ℚ) : ℚ := ⌊a / b⌋

/-- Python float `x % y`: the remainder with the sign of the divisor,
`a - b * floor (a / b)`, exact-arithmetic model. -/
def pyMod (a b : ℚ) : ℚ := a - b * ⌊a / b⌋

/-- Python `int x` on a float: truncation toward zero. -/
def pyTrunc (a : ℚ) : ℤ := if 0 ≤ a then ⌊a⌋ else ⌈a⌉

/-- Zero-pad a digit string on the left to a minimum width. -/
def padZeros (s : String) (w : Nat) : String :=
  (List.replicate (w - s.length) '0').asString ++ s

/-- Python f-string integer field `0N` (e.g. `02`, `03`): decimal digits
zero-padded to minimum total width N; for a negative value the sign comes
first and the padding fills between the sign and the digits. -/
def formatIntPad (n : ℤ) (w : Nat) : String :=
  if n < 0 then "-" ++ padZeros (toString n.natAbs) (w - 1)
  else padZeros (toString n.natAbs) w

/-- Function `format_time` of `src/main.py` (exact-arithmetic model):
`h = int (seconds // 3600)`, `m = int ((seconds % 3600) // 60)`,
`s = int (seconds % 60)`, `ms = int ((seconds - int seconds) * 1000)`,
rendered as `h:02`, `m:02`, `s:02`, `ms:03` joined by `:`, `:`, `,`. -/
def format_time (seconds : ℚ) : String :=
  formatIntPad (pyTrunc (pyFloorDiv seconds 3600)) 2 ++ ":"
    ++ formatIntPad (pyTrunc (pyFloorDiv (pyMod seconds 3600) 60)) 2 ++ ":"
    ++ formatIntPad (pyTrunc (pyMod seconds 60)) 2 ++ ","
    ++ formatIntPad (pyTrunc ((seconds - (pyTrunc seconds : ℚ)) * 1000)) 3

/-- The characters Python `str.isspace` (hence `str.strip()`) treats as
whitespace: ASCII whitespace, the C1 separator controls, and the Unicode
space characters. -/
def pyIsSpace (c : Char) : Bool :=
  (9 ≤ c.toNat && c.toNat ≤ 13) || (28 ≤ c.toNat && c.toNat ≤ 31)
  || c.toNat == 32 || c.toNat == 133 || c.toNat == 160 || c.toNat == 5760
  || (8192 ≤ c.toNat && c.toNat ≤ 8202) || c.toNat == 8232
  || c.toNat == 8233 || c.toNat == 8239 || c.toNat == 8287
  || c.toNat == 12288

/-- Python `str.strip()`: drop leading and trailing whitespace. -/
def pyStrip (s : String) : String :=
  (((s.data.dropWhile pyIsSpace).reverse.dropWhile pyIsSpace).reverse).asString

/-- A transcription segment with all three keys present (the input
contract of `save_srt`). -/
structure Segment where
  start : ℚ
  «end» : ℚ
  text : String

/-- The block `save_srt` appends for the segment of 1-based index `i`:
`f"i\nstart --> end\ntext\n\n"` with `start`/`end` rendered by
`format_time` and `text` stripped. -/
def srtBlock (i : Nat) (segment : Segment) : String :=
  toString i ++ "\n" ++ format_time segment.start ++ " --> "
    ++ format_time segment.«end» ++ "\n" ++ pyStrip segment.text ++ "\n\n"

/-- Function `save_srt` of `src/main.py`: the loop
`for i, segment in enumerate(segments, 1): srt_str += block` starting
from the empty string, modelled as a left fold carrying the accumulated
string and the next index. -/
def save_srt (segments : List Segment) : String :=
  (segments.foldl
    (fun acc segment => (acc.1 ++ srtBlock acc.2 segment, acc.2 + 1))
    ("", 1)).1

/-- IEEE-754 binary64 rounding: round the exact rational value to 53
significant bits, to nearest, ties to even.  The exponent range is
unbounded (no overflow, infinities or subnormals; all values appearing
in the claims are normal and far from the exponent limits). -/
def roundD (q : ℚ) : ℚ :=
  if q = 0 then 0
  else
    let e : ℤ := Int.log 2 |q| - 52
    let n : ℤ := ⌊|q| / 2 ^ e⌋
    let frac : ℚ := |q| / 2 ^ e - n
    let m : ℤ :=
      if frac < 1 / 2 then n
      else if 1 / 2 < frac then n + 1
      else if n % 2 = 0 then n else n + 1
    (if q < 0 then -1 else 1) * (m : ℚ) * 2 ^ e

/-- Python float `x // y`, binary64 model: the mathematical floor of the
exact quotient, returned as a float (rounding only matters once the
result reaches 2^53). -/
def pyFloorDivFl (x y : ℚ) : ℚ := roundD (⌊x / y⌋ : ℚ)

/-- Python float `x % y`, binary64 model: C `fmod` (which is exact in
binary64: `x - trunc (x / y) * y` is always representable), followed by
Python's adjustment — when the remainder is nonzero and its sign differs
from the divisor's, `y` is added with one rounding. -/
def pyModFl (x y : ℚ) : ℚ :=
  let r := x - y * (pyTrunc (x / y) : ℚ)
  if r ≠ 0 ∧ ((r < 0 ∧ 0 < y) ∨ (0 < r ∧ y < 0)) then roundD (r + y) else r

/-- Function `format_time` of `src/main.py` in the binary64 model: every float
operation rounds its exact result (`int` conversion back to float, the
subtraction and the multiplication by 1000 each round once; floor
division and remainder are modelled by `pyFloorDivFl` and `pyModFl`). -/
def format_time_fl (seconds : ℚ) : String :=
  formatIntPad (pyTrunc (pyFloorDivFl seconds 3600)) 2 ++ ":"
    ++ formatIntPad (pyTrunc (pyFloorDivFl (pyModFl seconds 3600) 60)) 2 ++ ":"
    ++ formatIntPad (pyTrunc (pyModFl seconds 60)) 2 ++ ","
    ++ formatIntPad
      (pyTrunc (roundD (roundD (seconds - roundD (pyTrunc seconds : ℚ)) * 1000))) 3

/-- A segment as the dictionary `save_srt` actually receives: each of the
three keys may be absent.  A `none` field models a missing key, whose
lookup raises `KeyError`. -/
structure SegmentDict where
  start : Option ℚ
  «end» : Option ℚ
  text : Option String

/-- The loop body of `save_srt` over dictionaries, from index `i`:
`none` models an exception escaping the loop (any missing key aborts the
whole call; the partially accumulated string is discarded). -/
def save_srtD : Nat → List SegmentDict → Option String
  | _, [] => some ""
  | i, segment :: rest => do
    let st ← segment.start
    let en ← segment.«end»
    let tx ← segment.text
    let r ← save_srtD (i + 1) rest
    some (srtBlock i ⟨st, en, tx⟩ ++ r)

/-- Function `save_srt` over dictionaries, starting the counter at 1. -/
def save_srt_dict (segments : List SegmentDict) : Option String :=
  save_srtD 1 segments

/-- Checked floor division: Python `x // y` raises `ZeroDivisionError`
when `y = 0`; `none` models the exception. -/
def pyFloorDivE (a b : ℚ) : Option ℚ :=
  if b = 0 then none else some (⌊a / b⌋ : ℚ)

/-- Checked remainder: Python `x % y` raises `ZeroDivisionError` when
`y = 0`; `none` models the exception. -/
def pyModE (a b : ℚ) : Option ℚ :=
  if b = 0 then none else some (a - b * ⌊a / b⌋)

/-- Function `format_time` with every fallible primitive checked: the only
operations of the body that can raise on a finite input are the two
floor divisions and the two remainders, and only on a zero divisor. -/
def format_timeE (seconds : ℚ) : Option String := do
  let d1 ← pyFloorDivE seconds 3600
  let m1 ← pyModE seconds 3600
  let d2 ← pyFloorDivE m1 60
  let m2 ← pyModE seconds 60
  some (formatIntPad (pyTrunc d1) 2 ++ ":" ++ formatIntPad (pyTrunc d2) 2 ++ ":"
    ++ formatIntPad (pyTrunc m2) 2 ++ ","
    ++ formatIntPad (pyTrunc ((seconds - (pyTrunc seconds : ℚ)) * 1000)) 3)

/-- Whether a string has the fixed-width clock shape `HH:MM:SS,mmm`:
exactly twelve characters, digits except for `:` at positions 2 and 5
and `,` at position 8. -/
def isClockShape (s : String) : Bool :=
  match s.data with
  | [a, b, c, d, e, f, g, h, i, j, k, l] =>
    a.isDigit && b.isDigit && c == ':' && d.isDigit && e.isDigit && f == ':'
      && g.isDigit && h.isDigit && i == ',' && j.isDigit && k.isDigit && l.isDigit
  | _ => false

/-! ### Basic facts about the Python primitives -/

lemma pyTrunc_intCast (n : ℤ) : pyTrunc (n : ℚ) = n := by
  unfold pyTrunc
  split <;> simp

lemma pyTrunc_of_nonneg {x : ℚ} (h : 0 ≤ x) : pyTrunc x = ⌊x⌋ := if_pos h

lemma pyTrunc_eq_nonneg (x : ℚ) (n : ℤ) (h3 : 0 ≤ n) (h1 : (n : ℚ) ≤ x)
    (h2 : x < n + 1) : pyTrunc x = n := by
  unfold pyTrunc
  rw [if_pos (le_trans (by exact_mod_cast h3) h1), Int.floor_eq_iff]
  exact ⟨h1, by exact_mod_cast h2⟩

lemma pyTrunc_eq_neg (x : ℚ) (n : ℤ) (h3 : x < 0) (h1 : (n : ℚ) - 1 < x)
    (h2 : x ≤ n) : pyTrunc x = n := by
  unfold pyTrunc
  rw [if_neg (not_le.mpr h3), Int.ceil_eq_iff]
  exact ⟨by exact_mod_cast h1, h2⟩

lemma pyFloorDiv_eq (a b : ℚ) (n : ℤ) (h1 : (n : ℚ) ≤ a / b)
    (h2 : a / b < n + 1) : pyFloorDiv a b = (n : ℚ) := by
  unfold pyFloorDiv
  congr 1
  rw [Int.floor_eq_iff]
  exact ⟨h1, by exact_mod_cast h2⟩

lemma pyMod_eq (a b : ℚ) (n : ℤ) (h1 : (n : ℚ) ≤ a / b) (h2 : a / b < n + 1) :
    pyMod a b = a - b * n := by
  unfold pyMod
  rw [show ⌊a / b⌋ = n from Int.floor_eq_iff.mpr ⟨h1, by exact_mod_cast h2⟩]

lemma pyMod_eq_fract (a : ℚ) {b : ℚ} (hb : b ≠ 0) :
    pyMod a b = b * Int.fract (a / b) := by
  unfold pyMod
  rw [Int.fract, mul_sub, mul_div_cancel₀ a hb]

lemma pyMod_nonneg (a : ℚ) {b : ℚ} (hb : 0 < b) : 0 ≤ pyMod a b := by
  rw [pyMod_eq_fract a hb.ne']
  exact mul_nonneg hb.le (Int.fract_nonneg _)

lemma pyMod_lt (a : ℚ) {b : ℚ} (hb : 0 < b) : pyMod a b < b := by
  rw [pyMod_eq_fract a hb.ne']
  exact (mul_lt_mul_of_pos_left (Int.fract_lt_one _) hb).trans_eq (mul_one b)

lemma minutes_nonneg (a : ℚ) : 0 ≤ ⌊pyMod a 3600 / 60⌋ :=
  Int.floor_nonneg.mpr
    (div_nonneg (pyMod_nonneg a (by norm_num)) (by norm_num))

lemma minutes_le (a : ℚ) : ⌊pyMod a 3600 / 60⌋ ≤ 59 := by
  have h := pyMod_lt a (show (0 : ℚ) < 3600 by norm_num)
  have h1 : pyMod a 3600 / 60 < 60 := by
    rw [div_lt_iff₀ (show (0 : ℚ) < 60 by norm_num)]
    linarith
  have h2 : ⌊pyMod a 3600 / 60⌋ < 60 :=
    Int.floor_lt.mpr (by exact_mod_cast h1)
  omega

lemma secs_nonneg (a : ℚ) : 0 ≤ ⌊pyMod a 60⌋ :=
  Int.floor_nonneg.mpr (pyMod_nonneg a (by norm_num))

lemma secs_le (a : ℚ) : ⌊pyMod a 60⌋ ≤ 59 := by
  have h := pyMod_lt a (show (0 : ℚ) < 60 by norm_num)
  have h2 : ⌊pyMod a 60⌋ < 60 := Int.floor_lt.mpr (by exact_mod_cast h)
  omega

lemma millis_nonneg (a : ℚ) : 0 ≤ ⌊(a - (⌊a⌋ : ℚ)) * 1000⌋ :=
  Int.floor_nonneg.mpr (mul_nonneg (Int.fract_nonneg a) (by norm_num))

lemma millis_le (a : ℚ) : ⌊(a - (⌊a⌋ : ℚ)) * 1000⌋ ≤ 999 := by
  have h : (a - (⌊a⌋ : ℚ)) * 1000 < 1000 := by
    have := Int.fract_lt_one a
    rw [Int.fract] at this
    nlinarith
  have h2 : ⌊(a - (⌊a⌋ : ℚ)) * 1000⌋ < 1000 :=
    Int.floor_lt.mpr (by exact_mod_cast h)
  omega

/-! ### String facts -/

lemma join_cons (s : String) (l : List String) :
    String.join (s :: l) = s ++ String.join l := by
  apply String.ext
  simp [String.join_eq, String.data_append]

lemma join_nil : String.join [] = "" := by
  apply String.ext
  simp [String.join_eq]

/-- Unfolding of the `save_srt` loop from an arbitrary accumulator: the
result appends, in input order, one block per segment, indexed
consecutively from the counter's starting value. -/
lemma save_srt_go (segs : List Segment) :
    ∀ acc : String × Nat,
      (segs.foldl
        (fun a segment => (a.1 ++ srtBlock a.2 segment, a.2 + 1)) acc).1
        = acc.1
          ++ String.join (List.zipWith srtBlock
              (List.range' acc.2 segs.length) segs) := by
  induction segs with
  | nil =>
    intro acc
    simp [join_nil, String.append_empty]
  | cons s t ih =>
    intro acc
    simp only [List.foldl_cons, List.length_cons]
    rw [ih]
    have hr : List.range' acc.2 (t.length + 1)
        = acc.2 :: List.range' (acc.2 + 1) t.length := rfl
    rw [hr, List.zipWith_cons_cons, join_cons, ← String.append_assoc]

/-- The head of `dropWhile p l`, when present, falsifies `p`. -/
lemma head?_dropWhile_false {p : Char → Bool} {l : List Char} {c : Char}
    (h : (l.dropWhile p).head? = some c) : p c = false := by
  have H := List.head?_dropWhile_not p l
  rw [h] at H
  exact H

/-- The last element of `dropWhile p l`, when the result is nonempty,
is the last element of `l`. -/
lemma getLast?_dropWhile {p : Char → Bool} (l : List Char)
    (h : l.dropWhile p ≠ []) :
    (l.dropWhile p).getLast? = l.getLast? := by
  obtain ⟨w, hw⟩ := List.dropWhile_suffix (l := l) p
  conv_rhs => rw [← hw]
  rw [List.getLast?_append]
  cases hd : (l.dropWhile p).getLast? with
  | none => exact absurd (List.getLast?_eq_none_iff.mp hd) h
  | some c => rfl

/-- Characterization of `pyStrip`: the input splits as whitespace prefix,
the stripped text (kept verbatim), and whitespace suffix, and the
stripped text neither starts nor ends with whitespace. -/
lemma pyStrip_decomp (s : String) :
    ∃ pre post : List Char,
      s.data = pre ++ (pyStrip s).data ++ post
      ∧ (∀ c ∈ pre, pyIsSpace c = true)
      ∧ (∀ c ∈ post, pyIsSpace c = true)
      ∧ (∀ c, (pyStrip s).data.head? = some c → pyIsSpace c = false)
      ∧ (∀ c, (pyStrip s).data.getLast? = some c → pyIsSpace c = false) := by
  refine ⟨s.data.takeWhile pyIsSpace,
    ((s.data.dropWhile pyIsSpace).reverse.takeWhile pyIsSpace).reverse,
    ?_, ?_, ?_, ?_, ?_⟩
  · rw [show (pyStrip s).data
        = ((s.data.dropWhile pyIsSpace).reverse.dropWhile pyIsSpace).reverse
      from rfl]
    conv_lhs => rw [← List.takeWhile_append_dropWhile pyIsSpace s.data]
    rw [List.append_assoc]
    congr 1
    conv_lhs => rw [← List.reverse_reverse (s.data.dropWhile pyIsSpace),
      ← List.takeWhile_append_dropWhile pyIsSpace
        (s.data.dropWhile pyIsSpace).reverse]
    rw [List.reverse_append]
  · intro c hc
    exact List.mem_takeWhile_imp hc
  · intro c hc
    exact List.mem_takeWhile_imp (List.mem_reverse.mp hc)
  · intro c hc
    rw [show (pyStrip s).data
        = ((s.data.dropWhile pyIsSpace).reverse.dropWhile pyIsSpace).reverse
      from rfl, List.head?_reverse] at hc
    have hne : (s.data.dropWhile pyIsSpace).reverse.dropWhile pyIsSpace ≠ [] := by
      intro h0
      rw [h0] at hc
      simp at hc
    rw [getLast?_dropWhile _ hne, List.getLast?_reverse] at hc
    exact head?_dropWhile_false hc
  · intro c hc
    rw [show (pyStrip s).data
        = ((s.data.dropWhile pyIsSpace).reverse.dropWhile pyIsSpace).reverse
      from rfl, List.getLast?_reverse] at hc
    exact head?_dropWhile_false hc

/-! ### Concrete evaluations of the exact-arithmetic `format_time` -/

lemma format_time_zero : format_time 0 = "00:00:00,000" := by
  have ht0 : pyTrunc (0 : ℚ) = 0 :=
    pyTrunc_eq_nonneg 0 0 (by norm_num) (by norm_num) (by norm_num)
  unfold format_time
  rw [pyFloorDiv_eq 0 3600 0 (by norm_num) (by norm_num)]
  rw [show pyMod (0 : ℚ) 3600 = 0 by
    rw [pyMod_eq 0 3600 0 (by norm_num) (by norm_num)]; norm_num]
  rw [pyFloorDiv_eq 0 60 0 (by norm_num) (by norm_num)]
  rw [show pyMod (0 : ℚ) 60 = 0 by
    rw [pyMod_eq 0 60 0 (by norm_num) (by norm_num)]; norm_num]
  simp only [pyTrunc_intCast]
  rw [ht0]
  rw [show ((0 : ℚ) - ((0 : ℤ) : ℚ)) * 1000 = 0 by norm_num, ht0]
  decide

lemma format_time_three_halves : format_time (3 / 2) = "00:00:01,500" := by
  unfold format_time
  rw [pyFloorDiv_eq (3 / 2) 3600 0 (by norm_num) (by norm_num)]
  rw [show pyMod ((3 : ℚ) / 2) 3600 = 3 / 2 by
    rw [pyMod_eq (3 / 2) 3600 0 (by norm_num) (by norm_num)]; norm_num]
  rw [pyFloorDiv_eq (3 / 2) 60 0 (by norm_num) (by norm_num)]
  rw [show pyMod ((3 : ℚ) / 2) 60 = 3 / 2 by
    rw [pyMod_eq (3 / 2) 60 0 (by norm_num) (by norm_num)]; norm_num]
  simp only [pyTrunc_intCast]
  rw [pyTrunc_eq_nonneg (3 / 2) 1 (by norm_num) (by norm_num) (by norm_num)]
  rw [show ((3 : ℚ) / 2 - ((1 : ℤ) : ℚ)) * 1000 = 500 by norm_num]
  rw [pyTrunc_eq_nonneg 500 500 (by norm_num) (by norm_num) (by norm_num)]
  decide

lemma format_time_three : format_time 3 = "00:00:03,000" := by
  unfold format_time
  rw [pyFloorDiv_eq 3 3600 0 (by norm_num) (by norm_num)]
  rw [show pyMod (3 : ℚ) 3600 = 3 by
    rw [pyMod_eq 3 3600 0 (by norm_num) (by norm_num)]; norm_num]
  rw [pyFloorDiv_eq 3 60 0 (by norm_num) (by norm_num)]
  rw [show pyMod (3 : ℚ) 60 = 3 by
    rw [pyMod_eq 3 60 0 (by norm_num) (by norm_num)]; norm_num]
  simp only [pyTrunc_intCast]
  rw [pyTrunc_eq_nonneg 3 3 (by norm_num) (by norm_num) (by norm_num)]
  rw [show ((3 : ℚ) - ((3 : ℤ) : ℚ)) * 1000 = 0 by norm_num]
  rw [pyTrunc_eq_nonneg 0 0 (by norm_num) (by norm_num) (by norm_num)]
  decide

lemma join_append (a b : List String) :
    String.join (a ++ b) = String.join a ++ String.join b := by
  apply String.ext
  simp [String.join_eq, String.data_append]

/-- C2: for every input sequence of N segments — whatever their text and
whether or not their times are ordered — `save_srt` emits exactly N
blocks, one per segment in input order, whose index lines carry the
contiguous integers 1..N assigned purely by input position; nothing is
re-sorted or validated. -/
theorem claim_C2_index_assignment (segs : List Segment) :
    save_srt segs
        = String.join (List.zipWith srtBlock (List.range' 1 segs.length) segs)
      ∧ (List.zipWith srtBlock (List.range' 1 segs.length) segs).length
        = segs.length := by
  constructor
  · unfold save_srt
    rw [save_srt_go]
    exact String.empty_append _
  · simp [List.length_zipWith, List.length_range']

/-- C3: `save_srt` returns the concatenation, in input order, of one
block per segment of the exact shape index line, `start --> end` line,
stripped text, blank line; appending a segment appends exactly its block
(so the last block also ends with the separator), and the two-segment
example produces exactly the expected document. -/
theorem claim_C3_block_shape :
    save_srt [⟨0, 3 / 2, "Hi"⟩, ⟨3 / 2, 3, " there "⟩]
        = "1\n00:00:00,000 --> 00:00:01,500\nHi\n\n2\n00:00:01,500 --> 00:00:03,000\nthere\n\n"
      ∧ (∀ (segs : List Segment) (segment : Segment),
          save_srt (segs ++ [segment])
            = save_srt segs ++ srtBlock (segs.length + 1) segment)
      ∧ ∀ i segment, srtBlock i segment
          = toString i ++ "\n" ++ format_time segment.start ++ " --> "
            ++ format_time segment.«end» ++ "\n" ++ pyStrip segment.text
            ++ "\n\n" := by
  refine ⟨?_, ?_, fun i segment => rfl⟩
  · have e1 : srtBlock 1 ⟨0, 3 / 2, "Hi"⟩
        = "1\n00:00:00,000 --> 00:00:01,500\nHi\n\n" := by
      show toString 1 ++ "\n" ++ format_time 0 ++ " --> "
          ++ format_time (3 / 2) ++ "\n" ++ pyStrip "Hi" ++ "\n\n" = _
      rw [format_time_zero, format_time_three_halves]
      decide
    have e2 : srtBlock 2 ⟨3 / 2, 3, " there "⟩
        = "2\n00:00:01,500 --> 00:00:03,000\nthere\n\n" := by
      show toString 2 ++ "\n" ++ format_time (3 / 2) ++ " --> "
          ++ format_time 3 ++ "\n" ++ pyStrip " there " ++ "\n\n" = _
      rw [format_time_three_halves, format_time_three]
      decide
    show ("" ++ srtBlock 1 ⟨0, 3 / 2, "Hi"⟩) ++ srtBlock 2 ⟨3 / 2, 3, " there "⟩
        = _
    rw [String.empty_append, e1, e2]
    decide
  · intro segs segment
    unfold save_srt
    rw [save_srt_go, save_srt_go, String.empty_append, String.empty_append]
    rw [show (segs ++ [segment]).length = segs.length + 1 by simp]
    rw [List.range'_concat]
    rw [List.zipWith_append _ _ _ _ _ (by simp [List.length_range'])]
    rw [join_append]
    congr 1
    rw [show 1 + 1 * segs.length = segs.length + 1 by omega]
    simp [join_cons, join_nil, String.append_empty]

/-- C5: for every segment, `save_srt` strips exactly the leading and
trailing whitespace of its text and nothing else: interior characters —
including embedded newlines and control characters — pass through
verbatim, and the documented example strips to `hi there`. -/
theorem claim_C5_strip_exact :
    pyStrip "  hi there  \n" = "hi there"
      ∧ save_srt [⟨0, 0, "  hi there  \n"⟩]
        = "1\n00:00:00,000 --> 00:00:00,000\nhi there\n\n"
      ∧ ∀ s : String, ∃ pre post : List Char,
          s.data = pre ++ (pyStrip s).data ++ post
          ∧ (∀ c ∈ pre, pyIsSpace c = true)
          ∧ (∀ c ∈ post, pyIsSpace c = true)
          ∧ (∀ c, (pyStrip s).data.head? = some c → pyIsSpace c = false)
          ∧ (∀ c, (pyStrip s).data.getLast? = some c → pyIsSpace c = false) := by
  refine ⟨by decide, ?_, pyStrip_decomp⟩
  show "" ++ srtBlock 1 ⟨0, 0, "  hi there  \n"⟩ = _
  rw [String.empty_append]
  show toString 1 ++ "\n" ++ format_time 0 ++ " --> " ++ format_time 0
      ++ "\n" ++ pyStrip "  hi there  \n" ++ "\n\n" = _
  rw [format_time_zero]
  decide

/-- C6: `save_srt` applied to the empty segment sequence returns the
empty string. -/
theorem claim_C6_empty_input : save_srt [] = "" := rfl

/-- C7: `save_srt` is a pure, deterministic function of its input: equal
segment sequences give byte-identical output (in this embedding the
function is total and effect-free by construction, matching the source,
which only reads its argument and builds a fresh string). -/
theorem claim_C7_deterministic (s₁ s₂ : List Segment) (h : s₁ = s₂) :
    save_srt s₁ = save_srt s₂ :=
  congrArg save_srt h

theorem claim_C7_deterministic_witness :
    save_srt [] = save_srt [] :=
  claim_C7_deterministic [] [] rfl

/-! ### Evaluating `roundD` -/

lemma roundD_zero : roundD 0 = 0 := by
  simp [roundD]

lemma log2_eq_of_bounds {q : ℚ} (e0 : ℤ) (hq : 0 < q)
    (hl : (2 : ℚ) ^ e0 ≤ q) (hh : q < (2 : ℚ) ^ (e0 + 1)) :
    Int.log 2 q = e0 := by
  have hc : ((2 : ℕ) : ℚ) = (2 : ℚ) := by norm_num
  have h1 : e0 ≤ Int.log 2 q := by
    have h2 : Int.log 2 ((2 : ℚ) ^ e0) ≤ Int.log 2 q :=
      Int.log_mono_right (zpow_pos (by norm_num) e0) hl
    rw [← hc] at h2
    rw [Int.log_zpow (by norm_num : (1 : ℕ) < 2) e0] at h2
    exact h2
  have h2 : Int.log 2 q ≤ e0 := by
    by_contra hcon
    push_neg at hcon
    have h3 : (2 : ℚ) ^ (e0 + 1) ≤ (2 : ℚ) ^ Int.log 2 q :=
      zpow_le_zpow_right₀ (by norm_num) (by omega)
    have h4 : ((2 : ℕ) : ℚ) ^ Int.log 2 q ≤ q :=
      Int.zpow_log_le_self (by norm_num) hq
    rw [hc] at h4
    linarith
  omega

/-- Evaluation rule for `roundD` in the round-down case: if `q` lies in
the binade `[2^e0, 2^(e0+1))` and within `[N·2^(e0-52), (N+1/2)·2^(e0-52))`,
the rounded value is `N·2^(e0-52)`.  (Exactly representable values are the
special case `q = N·2^(e0-52)`.) -/
lemma roundD_eq_down {q : ℚ} (e0 N : ℤ) (hq : 0 < q)
    (hl : (2 : ℚ) ^ e0 ≤ q) (hh : q < (2 : ℚ) ^ (e0 + 1))
    (hNl : (N : ℚ) * 2 ^ (e0 - 52) ≤ q)
    (hNu : q < ((N : ℚ) + 1 / 2) * 2 ^ (e0 - 52)) :
    roundD q = (N : ℚ) * 2 ^ (e0 - 52) := by
  have habs : |q| = q := abs_of_pos hq
  have hlog : Int.log 2 q = e0 := log2_eq_of_bounds e0 hq hl hh
  have hpow : (0 : ℚ) < 2 ^ (e0 - 52) := zpow_pos (by norm_num) _
  have hfloor : ⌊q / 2 ^ (e0 - 52)⌋ = N := by
    rw [Int.floor_eq_iff]
    refine ⟨(le_div_iff₀ hpow).mpr hNl, ?_⟩
    rw [div_lt_iff₀ hpow]
    nlinarith
  have hfrac : q / 2 ^ (e0 - 52) - (N : ℚ) < 1 / 2 := by
    have h5 := (div_lt_iff₀ hpow).mpr hNu
    linarith
  unfold roundD
  rw [if_neg hq.ne']
  simp only [habs, hlog]
  rw [hfloor]
  rw [if_pos hfrac, if_neg (not_lt.mpr hq.le)]
  ring

lemma roundD_neg (q : ℚ) : roundD (-q) = -roundD q := by
  by_cases h0 : q = 0
  · simp [h0, roundD]
  · have h0' : -q ≠ 0 := neg_ne_zero.mpr h0
    unfold roundD
    rw [if_neg h0, if_neg h0']
    simp only [abs_neg]
    rcases lt_or_gt_of_ne h0 with hlt | hgt
    · rw [if_neg (not_lt.mpr (le_of_lt (neg_pos.mpr hlt))), if_pos hlt]
      ring
    · rw [if_pos (neg_lt_zero.mpr hgt), if_neg (not_lt.mpr hgt.le)]
      ring

/-- Rounding `roundD` fixes every representable value (53-bit significand). -/
lemma roundD_of_repr {q : ℚ} (e0 N : ℤ) (hq : 0 < q)
    (hl : (2 : ℚ) ^ e0 ≤ q) (hh : q < (2 : ℚ) ^ (e0 + 1))
    (heq : (N : ℚ) * 2 ^ (e0 - 52) = q) : roundD q = q := by
  have hpow : (0 : ℚ) < 2 ^ (e0 - 52) := zpow_pos (by norm_num) _
  rw [roundD_eq_down e0 N hq hl hh (le_of_eq heq) (by nlinarith), heq]

lemma pyFloorDivFl_eq (x y : ℚ) (n : ℤ) (h1 : (n : ℚ) ≤ x / y)
    (h2 : x / y < n + 1) : pyFloorDivFl x y = roundD (n : ℚ) := by
  unfold pyFloorDivFl
  rw [show ⌊x / y⌋ = n from Int.floor_eq_iff.mpr ⟨h1, by exact_mod_cast h2⟩]

lemma pyModFl_noadjust (x y : ℚ) (n : ℤ) (htr : pyTrunc (x / y) = n)
    (hy : 0 < y) (hr : 0 ≤ x - y * n) : pyModFl x y = x - y * n := by
  unfold pyModFl
  simp only [htr]
  rw [if_neg]
  rintro ⟨hne, hcase | hcase⟩
  · linarith [hcase.1]
  · linarith [hcase.2]

lemma pyModFl_adjust (x y : ℚ) (n : ℤ) (htr : pyTrunc (x / y) = n)
    (hy : 0 < y) (hr : x - y * n < 0) :
    pyModFl x y = roundD (x - y * n + y) := by
  unfold pyModFl
  simp only [htr]
  rw [if_pos ⟨hr.ne, Or.inl ⟨hr, hy⟩⟩]

/-! ### Binary64 evaluations of `format_time_fl` at the claims' inputs -/

lemma fl_eval_5007 :
    format_time_fl (2818690416780509 / 562949953421312) = "00:00:05,006" := by
  unfold format_time_fl
  rw [pyFloorDivFl_eq _ 3600 0 (by norm_num) (by norm_num)]
  rw [show ((0 : ℤ) : ℚ) = 0 by norm_num, roundD_zero]
  rw [pyTrunc_eq_nonneg 0 0 le_rfl le_rfl (by norm_num)]
  rw [pyModFl_noadjust _ 3600 0
    (pyTrunc_eq_nonneg _ 0 le_rfl (by norm_num) (by norm_num))
    (by norm_num) (by norm_num)]
  rw [show (2818690416780509 / 562949953421312 : ℚ) - 3600 * ((0 : ℤ) : ℚ)
      = 2818690416780509 / 562949953421312 by norm_num]
  rw [pyFloorDivFl_eq _ 60 0 (by norm_num) (by norm_num)]
  rw [show ((0 : ℤ) : ℚ) = 0 by norm_num, roundD_zero]
  rw [pyTrunc_eq_nonneg 0 0 le_rfl le_rfl (by norm_num)]
  rw [pyModFl_noadjust _ 60 0
    (pyTrunc_eq_nonneg _ 0 le_rfl (by norm_num) (by norm_num))
    (by norm_num) (by norm_num)]
  rw [show (2818690416780509 / 562949953421312 : ℚ) - 60 * ((0 : ℤ) : ℚ)
      = 2818690416780509 / 562949953421312 by norm_num]
  rw [pyTrunc_eq_nonneg (2818690416780509 / 562949953421312) 5
    (by norm_num) (by norm_num) (by norm_num)]
  rw [show ((5 : ℤ) : ℚ) = 5 by norm_num]
  rw [show roundD (5 : ℚ) = 5 from roundD_of_repr 2 5629499534213120
    (by norm_num) (by norm_num) (by norm_num) (by norm_num)]
  rw [show (2818690416780509 / 562949953421312 : ℚ) - 5
      = 3940649673949 / 562949953421312 by norm_num]
  rw [show roundD (3940649673949 / 562949953421312 : ℚ)
      = 3940649673949 / 562949953421312 from roundD_of_repr (-8) 8070450532247552
    (by norm_num) (by norm_num) (by norm_num) (by norm_num)]
  rw [show (3940649673949 / 562949953421312 : ℚ) * 1000
      = 492581209243625 / 70368744177664 by norm_num]
  rw [show roundD (492581209243625 / 70368744177664 : ℚ)
      = 492581209243625 / 70368744177664 from roundD_of_repr 2 7881299347898000
    (by norm_num) (by norm_num) (by norm_num) (by norm_num)]
  rw [pyTrunc_eq_nonneg (492581209243625 / 70368744177664) 6
    (by norm_num) (by norm_num) (by norm_num)]
  decide

/-- The Python literal `5.007` parses to the binary64 value
`2818690416780509/2^49`, and `format_time` of that float prints
millisecond field `006`. -/
lemma fl_5007 :
    format_time_fl (roundD (5007 / 1000)) = "00:00:05,006" := by
  rw [show roundD (5007 / 1000 : ℚ) = 2818690416780509 / 562949953421312 by
    rw [roundD_eq_down 2 5637380833561018 (by norm_num) (by norm_num)
      (by norm_num) (by norm_num) (by norm_num)]
    norm_num]
  exact fl_eval_5007
lemma fl_4000 : format_time_fl 4000 = "01:06:40,000" := by
  unfold format_time_fl
  rw [pyFloorDivFl_eq 4000 3600 1 (by norm_num) (by norm_num)]
  rw [show ((1 : ℤ) : ℚ) = 1 by norm_num]
  rw [show roundD (1 : ℚ) = 1 from roundD_of_repr 0 4503599627370496
    (by norm_num) (by norm_num) (by norm_num) (by norm_num)]
  rw [pyTrunc_eq_nonneg 1 1 (by norm_num) (by norm_num) (by norm_num)]
  rw [pyModFl_noadjust 4000 3600 1
    (pyTrunc_eq_nonneg _ 1 (by norm_num) (by norm_num) (by norm_num))
    (by norm_num) (by norm_num)]
  rw [show (4000 : ℚ) - 3600 * ((1 : ℤ) : ℚ) = 400 by norm_num]
  rw [pyFloorDivFl_eq 400 60 6 (by norm_num) (by norm_num)]
  rw [show ((6 : ℤ) : ℚ) = 6 by norm_num]
  rw [show roundD (6 : ℚ) = 6 from roundD_of_repr 2 6755399441055744
    (by norm_num) (by norm_num) (by norm_num) (by norm_num)]
  rw [pyTrunc_eq_nonneg 6 6 (by norm_num) (by norm_num) (by norm_num)]
  rw [pyModFl_noadjust 4000 60 66
    (pyTrunc_eq_nonneg _ 66 (by norm_num) (by norm_num) (by norm_num))
    (by norm_num) (by norm_num)]
  rw [show (4000 : ℚ) - 60 * ((66 : ℤ) : ℚ) = 40 by norm_num]
  rw [pyTrunc_eq_nonneg 40 40 (by norm_num) (by norm_num) (by norm_num)]
  rw [pyTrunc_eq_nonneg 4000 4000 (by norm_num) (by norm_num) (by norm_num)]
  rw [show ((4000 : ℤ) : ℚ) = 4000 by norm_num]
  rw [show roundD (4000 : ℚ) = 4000 from roundD_of_repr 11 8796093022208000
    (by norm_num) (by norm_num) (by norm_num) (by norm_num)]
  rw [show (4000 : ℚ) - 4000 = 0 by norm_num, roundD_zero]
  rw [show (0 : ℚ) * 1000 = 0 by norm_num, roundD_zero]
  rw [pyTrunc_eq_nonneg 0 0 le_rfl le_rfl (by norm_num)]
  decide

lemma fl_360000 : format_time_fl 360000 = "100:00:00,000" := by
  unfold format_time_fl
  rw [pyFloorDivFl_eq 360000 3600 100 (by norm_num) (by norm_num)]
  rw [show ((100 : ℤ) : ℚ) = 100 by norm_num]
  rw [show roundD (100 : ℚ) = 100 from roundD_of_repr 6 7036874417766400
    (by norm_num) (by norm_num) (by norm_num) (by norm_num)]
  rw [pyTrunc_eq_nonneg 100 100 (by norm_num) (by norm_num) (by norm_num)]
  rw [pyModFl_noadjust 360000 3600 100
    (pyTrunc_eq_nonneg _ 100 (by norm_num) (by norm_num) (by norm_num))
    (by norm_num) (by norm_num)]
  rw [show (360000 : ℚ) - 3600 * ((100 : ℤ) : ℚ) = 0 by norm_num]
  rw [pyFloorDivFl_eq 0 60 0 (by norm_num) (by norm_num)]
  rw [show ((0 : ℤ) : ℚ) = 0 by norm_num, roundD_zero]
  rw [pyTrunc_eq_nonneg 0 0 le_rfl le_rfl (by norm_num)]
  rw [pyModFl_noadjust 360000 60 6000
    (pyTrunc_eq_nonneg _ 6000 (by norm_num) (by norm_num) (by norm_num))
    (by norm_num) (by norm_num)]
  rw [show (360000 : ℚ) - 60 * ((6000 : ℤ) : ℚ) = 0 by norm_num]
  rw [pyTrunc_eq_nonneg 0 0 le_rfl le_rfl (by norm_num)]
  rw [pyTrunc_eq_nonneg 360000 360000 (by norm_num) (by norm_num) (by norm_num)]
  rw [show ((360000 : ℤ) : ℚ) = 360000 by norm_num]
  rw [show roundD (360000 : ℚ) = 360000 from roundD_of_repr 18 6184752906240000
    (by norm_num) (by norm_num) (by norm_num) (by norm_num)]
  rw [show (360000 : ℚ) - 360000 = 0 by norm_num, roundD_zero]
  rw [show (0 : ℚ) * 1000 = 0 by norm_num, roundD_zero]
  rw [pyTrunc_eq_nonneg 0 0 le_rfl le_rfl (by norm_num)]
  decide
lemma fl_eval_599995 :
    format_time_fl (4222089466287751 / 70368744177664) = "00:00:59,999" := by
  unfold format_time_fl
  rw [pyFloorDivFl_eq _ 3600 0 (by norm_num) (by norm_num)]
  rw [show ((0 : ℤ) : ℚ) = 0 by norm_num, roundD_zero]
  rw [pyTrunc_eq_nonneg 0 0 le_rfl le_rfl (by norm_num)]
  rw [pyModFl_noadjust _ 3600 0
    (pyTrunc_eq_nonneg _ 0 le_rfl (by norm_num) (by norm_num))
    (by norm_num) (by norm_num)]
  rw [show (4222089466287751 / 70368744177664 : ℚ) - 3600 * ((0 : ℤ) : ℚ)
      = 4222089466287751 / 70368744177664 by norm_num]
  rw [pyFloorDivFl_eq _ 60 0 (by norm_num) (by norm_num)]
  rw [show ((0 : ℤ) : ℚ) = 0 by norm_num, roundD_zero]
  rw [pyTrunc_eq_nonneg 0 0 le_rfl le_rfl (by norm_num)]
  rw [pyModFl_noadjust _ 60 0
    (pyTrunc_eq_nonneg _ 0 le_rfl (by norm_num) (by norm_num))
    (by norm_num) (by norm_num)]
  rw [show (4222089466287751 / 70368744177664 : ℚ) - 60 * ((0 : ℤ) : ℚ)
      = 4222089466287751 / 70368744177664 by norm_num]
  rw [pyTrunc_eq_nonneg (4222089466287751 / 70368744177664) 59
    (by norm_num) (by norm_num) (by norm_num)]
  rw [show ((59 : ℤ) : ℚ) = 59 by norm_num]
  rw [show roundD (59 : ℚ) = 59 from roundD_of_repr 5 8303511812964352
    (by norm_num) (by norm_num) (by norm_num) (by norm_num)]
  rw [show (4222089466287751 / 70368744177664 : ℚ) - 59
      = 70333559805575 / 70368744177664 by norm_num]
  rw [show roundD (70333559805575 / 70368744177664 : ℚ)
      = 70333559805575 / 70368744177664 from roundD_of_repr (-1) 9002695655113600
    (by norm_num) (by norm_num) (by norm_num) (by norm_num)]
  rw [show (70333559805575 / 70368744177664 : ℚ) * 1000
      = 8791694975696875 / 8796093022208 by norm_num]
  rw [show roundD (8791694975696875 / 8796093022208 : ℚ)
      = 8791694975696875 / 8796093022208 from roundD_of_repr 9 8791694975696875
    (by norm_num) (by norm_num) (by norm_num) (by norm_num)]
  rw [pyTrunc_eq_nonneg (8791694975696875 / 8796093022208) 999
    (by norm_num) (by norm_num) (by norm_num)]
  decide

lemma fl_599995 :
    format_time_fl (roundD (119999 / 2000)) = "00:00:59,999" := by
  rw [show roundD (119999 / 2000 : ℚ) = 4222089466287751 / 70368744177664 by
    rw [roundD_eq_down 5 8444178932575502 (by norm_num) (by norm_num)
      (by norm_num) (by norm_num) (by norm_num)]
    norm_num]
  exact fl_eval_599995

lemma fl_eval_3599999 :
    format_time_fl (989560190120493 / 274877906944) = "00:59:59,998" := by
  unfold format_time_fl
  rw [pyFloorDivFl_eq _ 3600 0 (by norm_num) (by norm_num)]
  rw [show ((0 : ℤ) : ℚ) = 0 by norm_num, roundD_zero]
  rw [pyTrunc_eq_nonneg 0 0 le_rfl le_rfl (by norm_num)]
  rw [pyModFl_noadjust _ 3600 0
    (pyTrunc_eq_nonneg _ 0 le_rfl (by norm_num) (by norm_num))
    (by norm_num) (by norm_num)]
  rw [show (989560190120493 / 274877906944 : ℚ) - 3600 * ((0 : ℤ) : ℚ)
      = 989560190120493 / 274877906944 by norm_num]
  rw [pyFloorDivFl_eq _ 60 59 (by norm_num) (by norm_num)]
  rw [show ((59 : ℤ) : ℚ) = 59 by norm_num]
  rw [show roundD (59 : ℚ) = 59 from roundD_of_repr 5 8303511812964352
    (by norm_num) (by norm_num) (by norm_num) (by norm_num)]
  rw [pyTrunc_eq_nonneg 59 59 (by norm_num) (by norm_num) (by norm_num)]
  rw [pyModFl_noadjust _ 60 59
    (pyTrunc_eq_nonneg _ 59 (by norm_num) (by norm_num) (by norm_num))
    (by norm_num) (by norm_num)]
  rw [show (989560190120493 / 274877906944 : ℚ) - 60 * ((59 : ℤ) : ℚ)
      = 16492399538733 / 274877906944 by norm_num]
  rw [pyTrunc_eq_nonneg (16492399538733 / 274877906944) 59
    (by norm_num) (by norm_num) (by norm_num)]
  rw [pyTrunc_eq_nonneg (989560190120493 / 274877906944) 3599
    (by norm_num) (by norm_num) (by norm_num)]
  rw [show ((3599 : ℤ) : ℚ) = 3599 by norm_num]
  rw [show roundD (3599 : ℚ) = 3599 from roundD_of_repr 11 7914284696731648
    (by norm_num) (by norm_num) (by norm_num) (by norm_num)]
  rw [show (989560190120493 / 274877906944 : ℚ) - 3599
      = 274603029037 / 274877906944 by norm_num]
  rw [show roundD (274603029037 / 274877906944 : ℚ)
      = 274603029037 / 274877906944 from roundD_of_repr (-1) 8998192055484416
    (by norm_num) (by norm_num) (by norm_num) (by norm_num)]
  rw [show (274603029037 / 274877906944 : ℚ) * 1000
      = 34325378629625 / 34359738368 by norm_num]
  rw [show roundD (34325378629625 / 34359738368 : ℚ)
      = 34325378629625 / 34359738368 from roundD_of_repr 9 8787296929184000
    (by norm_num) (by norm_num) (by norm_num) (by norm_num)]
  rw [pyTrunc_eq_nonneg (34325378629625 / 34359738368) 998
    (by norm_num) (by norm_num) (by norm_num)]
  decide

lemma fl_3599999 :
    format_time_fl (roundD (3599999 / 1000)) = "00:59:59,998" := by
  rw [show roundD (3599999 / 1000 : ℚ) = 989560190120493 / 274877906944 by
    rw [roundD_eq_down 11 7916481520963944 (by norm_num) (by norm_num)
      (by norm_num) (by norm_num) (by norm_num)]
    norm_num]
  exact fl_eval_3599999
lemma fl_neg_half : format_time_fl (-(1 / 2)) = "-1:59:59,-500" := by
  unfold format_time_fl
  rw [pyFloorDivFl_eq (-(1 / 2)) 3600 (-1) (by norm_num) (by norm_num)]
  rw [show (((-1) : ℤ) : ℚ) = -1 by norm_num]
  rw [show roundD (-1 : ℚ) = -1 by
    rw [show (-1 : ℚ) = -(1 : ℚ) by norm_num, roundD_neg,
      show roundD (1 : ℚ) = 1 from roundD_of_repr 0 4503599627370496
        (by norm_num) (by norm_num) (by norm_num) (by norm_num)]]
  rw [pyTrunc_eq_neg (-1) (-1) (by norm_num) (by norm_num) (by norm_num)]
  rw [pyModFl_adjust (-(1 / 2)) 3600 0
    (pyTrunc_eq_neg _ 0 (by norm_num) (by norm_num) (by norm_num))
    (by norm_num) (by norm_num)]
  rw [show (-(1 / 2) : ℚ) - 3600 * ((0 : ℤ) : ℚ) + 3600 = 7199 / 2 by norm_num]
  rw [show roundD (7199 / 2 : ℚ) = 7199 / 2 from roundD_of_repr 11 7915384208359424
    (by norm_num) (by norm_num) (by norm_num) (by norm_num)]
  rw [pyFloorDivFl_eq (7199 / 2) 60 59 (by norm_num) (by norm_num)]
  rw [show ((59 : ℤ) : ℚ) = 59 by norm_num]
  rw [show roundD (59 : ℚ) = 59 from roundD_of_repr 5 8303511812964352
    (by norm_num) (by norm_num) (by norm_num) (by norm_num)]
  rw [pyTrunc_eq_nonneg 59 59 (by norm_num) (by norm_num) (by norm_num)]
  rw [pyModFl_adjust (-(1 / 2)) 60 0
    (pyTrunc_eq_neg _ 0 (by norm_num) (by norm_num) (by norm_num))
    (by norm_num) (by norm_num)]
  rw [show (-(1 / 2) : ℚ) - 60 * ((0 : ℤ) : ℚ) + 60 = 119 / 2 by norm_num]
  rw [show roundD (119 / 2 : ℚ) = 119 / 2 from roundD_of_repr 5 8373880557142016
    (by norm_num) (by norm_num) (by norm_num) (by norm_num)]
  rw [pyTrunc_eq_nonneg (119 / 2) 59 (by norm_num) (by norm_num) (by norm_num)]
  rw [pyTrunc_eq_neg (-(1 / 2)) 0 (by norm_num) (by norm_num) (by norm_num)]
  rw [show ((0 : ℤ) : ℚ) = 0 by norm_num, roundD_zero]
  rw [show (-(1 / 2) : ℚ) - 0 = -(1 / 2) by norm_num]
  rw [roundD_neg]
  rw [show roundD (1 / 2 : ℚ) = 1 / 2 from roundD_of_repr (-1) 4503599627370496
    (by norm_num) (by norm_num) (by norm_num) (by norm_num)]
  rw [show (-(1 / 2) : ℚ) * 1000 = -(500 : ℚ) by norm_num]
  rw [roundD_neg]
  rw [show roundD (500 : ℚ) = 500 from roundD_of_repr 8 8796093022208000
    (by norm_num) (by norm_num) (by norm_num) (by norm_num)]
  rw [pyTrunc_eq_neg (-(500 : ℚ)) (-500) (by norm_num) (by norm_num) (by norm_num)]
  decide
lemma format_time_shape {q : ℚ} (h : 0 ≤ q) :
    format_time q
      = formatIntPad ⌊q / 3600⌋ 2 ++ ":"
        ++ formatIntPad ⌊pyMod q 3600 / 60⌋ 2 ++ ":"
        ++ formatIntPad ⌊pyMod q 60⌋ 2 ++ ","
        ++ formatIntPad ⌊(q - (⌊q⌋ : ℚ)) * 1000⌋ 3 := by
  unfold format_time pyFloorDiv
  simp only [pyTrunc_intCast]
  rw [pyTrunc_of_nonneg (pyMod_nonneg q (by norm_num))]
  rw [pyTrunc_of_nonneg h]
  rw [pyTrunc_of_nonneg (x := (q - (⌊q⌋ : ℚ)) * 1000)
    (mul_nonneg (Int.fract_nonneg q) (by norm_num))]

lemma save_srtD_isSome (segs : List SegmentDict)
    (h : ∀ seg ∈ segs, seg.start.isSome ∧ seg.«end».isSome ∧ seg.text.isSome) :
    ∀ i, (save_srtD i segs).isSome := by
  induction segs with
  | nil => intro i; rfl
  | cons d rest ih =>
    intro i
    obtain ⟨h1, h2, h3⟩ := h d (List.mem_cons_self d rest)
    obtain ⟨st, hst⟩ := Option.isSome_iff_exists.mp h1
    obtain ⟨en, hen⟩ := Option.isSome_iff_exists.mp h2
    obtain ⟨tx, htx⟩ := Option.isSome_iff_exists.mp h3
    have hrest := ih (fun seg hs => h seg (List.mem_cons_of_mem _ hs)) (i + 1)
    obtain ⟨r, hr⟩ := Option.isSome_iff_exists.mp hrest
    simp [save_srtD, hst, hen, htx, hr]

lemma save_srtD_none (segs : List SegmentDict) :
    ∀ i j, (hj : j < segs.length) →
      ((segs.get ⟨j, hj⟩).start = none ∨ (segs.get ⟨j, hj⟩).«end» = none
        ∨ (segs.get ⟨j, hj⟩).text = none) →
      save_srtD i segs = none := by
  induction segs with
  | nil =>
    intro i j hj
    exact absurd hj (Nat.not_lt_zero j)
  | cons d rest ih =>
    intro i j hj hmiss
    cases j with
    | zero =>
      have hmiss' : d.start = none ∨ d.«end» = none ∨ d.text = none := hmiss
      rcases hmiss' with h0 | h0 | h0
      · simp [save_srtD, h0]
      · cases hst : d.start <;> simp [save_srtD, hst, h0]
      · cases hst : d.start <;> cases hen : d.«end» <;>
          simp [save_srtD, hst, hen, h0]
    | succ k =>
      have hk : k < rest.length := by simpa using hj
      have hrest := ih (i + 1) k hk hmiss
      cases hst : d.start <;> cases hen : d.«end» <;> cases htx : d.text <;>
        simp [save_srtD, hst, hen, htx, hrest]
lemma two_zpow_53 : ((2 ^ 53 : ℤ) : ℚ) = (2 : ℚ) ^ (53 : ℤ) := by
  norm_num

lemma natAbs_lt_53 {m : ℤ} (h : m.natAbs < 2 ^ 53) :
    |(m : ℚ)| < (2 : ℚ) ^ (53 : ℤ) := by
  have h1 : (m.natAbs : ℚ) < ((2 ^ 53 : ℕ) : ℚ) := by exact_mod_cast h
  rw [show ((2 ^ 53 : ℕ) : ℚ) = (2 : ℚ) ^ (53 : ℤ) by norm_num] at h1
  rw [Int.cast_natAbs] at h1
  rwa [Int.cast_abs] at h1

lemma roundD_nonneg {x : ℚ} (hx : 0 ≤ x) : 0 ≤ roundD x := by
  rcases hx.eq_or_lt with hz | hpos
  · rw [← hz, roundD_zero]
  · have habs : |x| = x := abs_of_pos hpos
    have hpow : (0 : ℚ) < 2 ^ (Int.log 2 x - 52) := zpow_pos (by norm_num) _
    have hn : 0 ≤ ⌊x / 2 ^ (Int.log 2 x - 52)⌋ :=
      Int.floor_nonneg.mpr (div_nonneg hpos.le hpow.le)
    unfold roundD
    rw [if_neg hpos.ne']
    simp only [habs]
    rw [if_neg (not_lt.mpr hpos.le)]
    split_ifs <;> rw [one_mul] <;>
      exact mul_nonneg (by exact_mod_cast (by omega : (0:ℤ) ≤ _)) hpow.le

/-- Values with at most 53 significant bits are fixed by `roundD`. -/
lemma roundD_fix {q : ℚ} (hq : 0 < q) (m t : ℤ)
    (hm : (m : ℚ) < (2 : ℚ) ^ (53 : ℤ)) (hrep : q = (m : ℚ) * 2 ^ t) :
    roundD q = q := by
  have hpt : (0 : ℚ) < 2 ^ t := zpow_pos (by norm_num) _
  have hc : ((2 : ℕ) : ℚ) = (2 : ℚ) := by norm_num
  have hle : (2 : ℚ) ^ Int.log 2 q ≤ q := by
    have h := Int.zpow_log_le_self (b := 2) (by norm_num) hq
    rwa [hc] at h
  have hlt : q < (2 : ℚ) ^ (Int.log 2 q + 1) := by
    have h := Int.lt_zpow_succ_log_self (b := 2) (by norm_num) q
    rwa [hc] at h
  set e0 := Int.log 2 q with he0
  have ht : e0 - 52 ≤ t := by
    by_contra hcon
    push_neg at hcon
    have h1 : q < 2 ^ (53 : ℤ) * 2 ^ t := by
      rw [hrep]
      exact mul_lt_mul_of_pos_right hm hpt
    have h2 : (2 : ℚ) ^ (53 : ℤ) * 2 ^ t = 2 ^ (53 + t) :=
      (zpow_add₀ (by norm_num : (2 : ℚ) ≠ 0) 53 t).symm
    have h3 : (2 : ℚ) ^ (53 + t) ≤ 2 ^ e0 :=
      zpow_le_zpow_right₀ (by norm_num) (by omega)
    linarith
  have hk : (0 : ℤ) ≤ t - (e0 - 52) := by omega
  have heq : ((m * 2 ^ (t - (e0 - 52)).toNat : ℤ) : ℚ)
      * 2 ^ (e0 - 52) = q := by
    push_cast
    rw [hrep, mul_assoc]
    congr 1
    rw [← zpow_natCast (2 : ℚ) (t - (e0 - 52)).toNat,
      Int.toNat_of_nonneg hk,
      ← zpow_add₀ (by norm_num : (2 : ℚ) ≠ 0)]
    congr 1
    omega
  exact roundD_of_repr e0 _ hq hle hlt heq

/-- Round-to-nearest moves a positive value up by at most half an ulp:
`roundD x ≤ x + 2 ^ (Int.log 2 x - 53)`. -/
lemma roundD_le_half_ulp {x : ℚ} (hx : 0 < x) :
    roundD x ≤ x + 2 ^ (Int.log 2 x - 53) := by
  have habs : |x| = x := abs_of_pos hx
  have hpow : (0 : ℚ) < 2 ^ (Int.log 2 x - 52) := zpow_pos (by norm_num) _
  have hhalfpos : (0 : ℚ) < 2 ^ (Int.log 2 x - 53) := zpow_pos (by norm_num) _
  have hhalf : (2 : ℚ) ^ (Int.log 2 x - 53) * 2 = 2 ^ (Int.log 2 x - 52) := by
    rw [show Int.log 2 x - 52 = Int.log 2 x - 53 + 1 by omega,
      zpow_add₀ (show (2 : ℚ) ≠ 0 by norm_num)]
    norm_num
  have hfl : (⌊x / 2 ^ (Int.log 2 x - 52)⌋ : ℚ) * 2 ^ (Int.log 2 x - 52) ≤ x := by
    rw [← le_div_iff₀ hpow]
    exact Int.floor_le _
  unfold roundD
  rw [if_neg hx.ne']
  simp only [habs]
  rw [if_neg (not_lt.mpr hx.le)]
  split_ifs with h1 h2 h3
  · rw [one_mul]
    linarith
  · rw [one_mul]
    push_cast
    have h6 : (⌊x / 2 ^ (Int.log 2 x - 52)⌋ : ℚ) + 1 / 2
        < x / 2 ^ (Int.log 2 x - 52) := by linarith
    have h5 := (lt_div_iff₀ hpow).mp h6
    nlinarith [hhalf]
  · rw [one_mul]
    linarith
  · rw [one_mul]
    push_cast
    have h4 : (1 : ℚ) / 2
        ≤ x / 2 ^ (Int.log 2 x - 52) - ⌊x / 2 ^ (Int.log 2 x - 52)⌋ :=
      not_lt.mp h1
    have h6 : (⌊x / 2 ^ (Int.log 2 x - 52)⌋ : ℚ) + 1 / 2
        ≤ x / 2 ^ (Int.log 2 x - 52) := by linarith
    have h5 := (le_div_iff₀ hpow).mp h6
    nlinarith [hhalf]

/-- Rounding cannot reach 1000 from the largest possible product
`fract * 1000` of a binary64 value: anything at most `1000*(1 - 2^-53)`
rounds strictly below 1000. -/
lemma roundD_lt_1000 {x : ℚ} (h0 : 0 ≤ x)
    (h1 : x ≤ 1000 - 1000 * (2 : ℚ) ^ (-53 : ℤ)) : roundD x < 1000 := by
  rcases h0.eq_or_lt with hz | hx
  · rw [← hz, roundD_zero]
    norm_num
  · have h9 : (0 : ℚ) < 2 ^ (-53 : ℤ) := zpow_pos (by norm_num) _
    have hlog : Int.log 2 x ≤ 9 := by
      by_contra hcon
      push_neg at hcon
      have h4 : ((2 : ℕ) : ℚ) ^ Int.log 2 x ≤ x :=
        Int.zpow_log_le_self (by norm_num) hx
      rw [show ((2 : ℕ) : ℚ) = (2 : ℚ) by norm_num] at h4
      have h5 : (2 : ℚ) ^ (10 : ℤ) ≤ 2 ^ Int.log 2 x :=
        zpow_le_zpow_right₀ (by norm_num) (by omega)
      have h6 : (2 : ℚ) ^ (10 : ℤ) = 1024 := by norm_num
      linarith
    have h6 := roundD_le_half_ulp hx
    have h7 : (2 : ℚ) ^ (Int.log 2 x - 53) ≤ 2 ^ (-44 : ℤ) :=
      zpow_le_zpow_right₀ (by norm_num) (by omega)
    have h8 : (2 : ℚ) ^ (-44 : ℤ) = 512 * 2 ^ (-53 : ℤ) := by
      rw [show (-44 : ℤ) = 9 + -53 by norm_num,
        zpow_add₀ (show (2 : ℚ) ≠ 0 by norm_num)]
      norm_num
    linarith

/-- The millisecond integer of `format_time_fl` stays below 1000 for
every representable (binary64) nonnegative input. -/
lemma fl_millis_lt {q : ℚ} (h0 : 0 ≤ q) (m t : ℤ) (hm : m.natAbs < 2 ^ 53)
    (hq : q = (m : ℚ) * 2 ^ t) :
    pyTrunc (roundD (roundD (q - roundD (pyTrunc q : ℚ)) * 1000)) < 1000 := by
  have hpt : (0 : ℚ) < 2 ^ t := zpow_pos (by norm_num) _
  rcases h0.eq_or_lt with hz | hqpos
  · rw [← hz]
    rw [show pyTrunc (0 : ℚ) = 0 from
      pyTrunc_eq_nonneg 0 0 le_rfl le_rfl (by norm_num)]
    rw [show ((0 : ℤ) : ℚ) = 0 by norm_num, roundD_zero]
    rw [show (0 : ℚ) - 0 = 0 by norm_num, roundD_zero]
    rw [show (0 : ℚ) * 1000 = 0 by norm_num, roundD_zero]
    rw [show pyTrunc (0 : ℚ) = 0 from
      pyTrunc_eq_nonneg 0 0 le_rfl le_rfl (by norm_num)]
    norm_num
  · have hmQ : (m : ℚ) < (2 : ℚ) ^ (53 : ℤ) :=
      lt_of_le_of_lt (le_abs_self _) (natAbs_lt_53 hm)
    have hfln : (0 : ℤ) ≤ ⌊q⌋ := Int.floor_nonneg.mpr h0
    rw [pyTrunc_of_nonneg h0]
    rcases le_or_lt t 0 with ht0 | ht0
    · have hq53 : q < (2 : ℚ) ^ (53 : ℤ) := by
        have h2 : (2 : ℚ) ^ t ≤ 1 := by
          have h3 := zpow_le_zpow_right₀ (show (1 : ℚ) ≤ 2 by norm_num) ht0
          rwa [zpow_zero] at h3
        have hm0 : (0 : ℚ) < (m : ℚ) := by
          have hq' := hqpos
          rw [hq] at hq'
          nlinarith [hpt]
        calc q = (m : ℚ) * 2 ^ t := hq
          _ ≤ (m : ℚ) * 1 := by nlinarith
          _ = (m : ℚ) := mul_one _
          _ < _ := hmQ
      have hrfl : roundD ((⌊q⌋ : ℤ) : ℚ) = ((⌊q⌋ : ℤ) : ℚ) := by
        rcases hfln.eq_or_lt with hfz | hfpos
        · rw [← hfz]
          norm_num [roundD_zero]
        · refine roundD_fix ?_ ⌊q⌋ 0 ?_ ?_
          · exact_mod_cast hfpos
          · calc ((⌊q⌋ : ℤ) : ℚ) ≤ q := Int.floor_le q
              _ < _ := hq53
          · rw [zpow_zero, mul_one]
      rw [hrfl]
      set f := q - ((⌊q⌋ : ℤ) : ℚ) with hf
      have hf0 : 0 ≤ f := by
        rw [hf]
        linarith [Int.floor_le q]
      have hf1 : f < 1 := by
        rw [hf]
        linarith [Int.lt_floor_add_one q]
      set K : ℤ := m - ⌊q⌋ * 2 ^ (-t).toNat with hKdef
      have h2tK : ((2 ^ (-t).toNat : ℤ) : ℚ) * 2 ^ t = 1 := by
        push_cast
        rw [← zpow_natCast (2 : ℚ) (-t).toNat,
          Int.toNat_of_nonneg (by omega : (0 : ℤ) ≤ -t),
          ← zpow_add₀ (show (2 : ℚ) ≠ 0 by norm_num)]
        norm_num
      have hK : f = (K : ℚ) * 2 ^ t := by
        calc f = (m : ℚ) * 2 ^ t - (⌊q⌋ : ℚ) := by rw [hf, hq]
          _ = (m : ℚ) * 2 ^ t
              - (⌊q⌋ : ℚ) * (((2 ^ (-t).toNat : ℤ) : ℚ) * 2 ^ t) := by
            rw [h2tK, mul_one]
          _ = ((m : ℚ) - (⌊q⌋ : ℚ) * ((2 ^ (-t).toNat : ℤ) : ℚ)) * 2 ^ t := by
            ring
          _ = (K : ℚ) * 2 ^ t := by
            rw [hKdef]
            push_cast
            ring
      have hKm : (K : ℚ) ≤ (m : ℚ) := by
        have hpos2 : (0 : ℚ) ≤ (⌊q⌋ : ℚ) * ((2 ^ (-t).toNat : ℤ) : ℚ) := by
          apply mul_nonneg
          · exact_mod_cast hfln
          · exact_mod_cast (by positivity : (0 : ℤ) ≤ 2 ^ (-t).toNat)
        rw [hKdef]
        push_cast at hpos2 ⊢
        linarith
      have hs1 : roundD f = f := by
        rcases hf0.eq_or_lt with hfz | hfpos
        · rw [← hfz, roundD_zero]
        · exact roundD_fix hfpos K t (lt_of_le_of_lt hKm hmQ) hK
      rw [hs1]
      have hfb : f ≤ 1 - (2 : ℚ) ^ (-53 : ℤ) := by
        rcases le_or_lt (-53 : ℤ) t with h53 | h53
        · have hKlt : (K : ℚ) * 2 ^ t < 1 := by
            rw [← hK]
            exact hf1
          have h1 : (K : ℚ) < ((2 ^ (-t).toNat : ℤ) : ℚ) := by
            by_contra hge
            push_neg at hge
            have h2 : (1 : ℚ) ≤ (K : ℚ) * 2 ^ t := by
              calc (1 : ℚ) = ((2 ^ (-t).toNat : ℤ) : ℚ) * 2 ^ t := h2tK.symm
                _ ≤ (K : ℚ) * 2 ^ t := by nlinarith [hpt]
            linarith
          have h2 : K ≤ 2 ^ (-t).toNat - 1 := by
            have h3 : K < 2 ^ (-t).toNat := by exact_mod_cast h1
            omega
          have h3 : f ≤ 1 - 2 ^ t := by
            have hcast : (K : ℚ) ≤ ((2 ^ (-t).toNat : ℤ) : ℚ) - 1 := by
              have h4 : (K : ℚ) ≤ ((2 ^ (-t).toNat - 1 : ℤ) : ℚ) := by
                exact_mod_cast h2
              push_cast at h4
              push_cast
              linarith
            calc f = (K : ℚ) * 2 ^ t := hK
              _ ≤ (((2 ^ (-t).toNat : ℤ) : ℚ) - 1) * 2 ^ t := by
                nlinarith [hpt]
              _ = ((2 ^ (-t).toNat : ℤ) : ℚ) * 2 ^ t - 2 ^ t := by ring
              _ = 1 - 2 ^ t := by rw [h2tK]
          have h4 : (2 : ℚ) ^ (-53 : ℤ) ≤ 2 ^ t :=
            zpow_le_zpow_right₀ (by norm_num) h53
          linarith
        · have hKle : (K : ℚ) ≤ (2 : ℚ) ^ (53 : ℤ) - 1 := by
            have h1 : (K : ℚ) < (2 : ℚ) ^ (53 : ℤ) := lt_of_le_of_lt hKm hmQ
            rw [← two_zpow_53] at h1 ⊢
            have h2 : K < 2 ^ 53 := by exact_mod_cast h1
            have h3 : K ≤ 2 ^ 53 - 1 := by omega
            have h4 : (K : ℚ) ≤ ((2 ^ 53 - 1 : ℤ) : ℚ) := by exact_mod_cast h3
            push_cast at h4
            push_cast
            linarith
          have ht2 : (2 : ℚ) ^ t ≤ 2 ^ (-54 : ℤ) :=
            zpow_le_zpow_right₀ (by norm_num) (by omega)
          have h53pos : (0 : ℚ) < (2 : ℚ) ^ (53 : ℤ) := zpow_pos (by norm_num) _
          have h5 : f ≤ ((2 : ℚ) ^ (53 : ℤ) - 1) * 2 ^ (-54 : ℤ) := by
            rw [hK]
            have hK0 : (0 : ℚ) ≤ (K : ℚ) := by
              by_contra hneg
              push_neg at hneg
              have h6 : (K : ℚ) * 2 ^ t < 0 := mul_neg_of_neg_of_pos hneg hpt
              rw [← hK] at h6
              linarith
            apply mul_le_mul hKle ht2 hpt.le
            linarith
          have h6 : ((2 : ℚ) ^ (53 : ℤ) - 1) * 2 ^ (-54 : ℤ)
              = 1 / 2 - 2 ^ (-54 : ℤ) := by
            rw [sub_mul, ← zpow_add₀ (show (2 : ℚ) ≠ 0 by norm_num)]
            norm_num
          have e53 : (2 : ℚ) ^ (-53 : ℤ) = 1 / 9007199254740992 := by norm_num
          have e54 : (2 : ℚ) ^ (-54 : ℤ) = 1 / 18014398509481984 := by norm_num
          rw [e53]
          rw [h6, e54] at h5
          linarith
      have hmul0 : (0 : ℚ) ≤ f * 1000 := mul_nonneg hf0 (by norm_num)
      have hmul : f * 1000 ≤ 1000 - 1000 * (2 : ℚ) ^ (-53 : ℤ) := by
        nlinarith [hfb]
      have hge := roundD_nonneg hmul0
      rw [pyTrunc_of_nonneg hge]
      exact Int.floor_lt.mpr (by exact_mod_cast roundD_lt_1000 hmul0 hmul)
    · have hqfix : roundD q = q := roundD_fix hqpos m t hmQ hq
      have hqint : ((⌊q⌋ : ℤ) : ℚ) = q := by
        have h1 : q = ((m * 2 ^ t.toNat : ℤ) : ℚ) := by
          rw [hq]
          push_cast
          rw [← zpow_natCast (2 : ℚ) t.toNat, Int.toNat_of_nonneg ht0.le]
        rw [h1, Int.floor_intCast]
      rw [hqint, hqfix, sub_self, roundD_zero, zero_mul, roundD_zero]
      rw [show pyTrunc (0 : ℚ) = 0 from
        pyTrunc_eq_nonneg 0 0 le_rfl le_rfl (by norm_num)]
      norm_num

/-- C1 is false as stated: the Python literal `5.007` denotes the
binary64 value just below 5.007, and the code prints its millisecond
field as `006`, not `007`. -/
theorem claim_C1_counterexample :
    format_time_fl (roundD (5007 / 1000)) ≠ "00:00:05,007" := by
  rw [fl_5007]
  decide

/-- C1 (amended): with exact rational arithmetic, `format_time` of any
nonnegative value is the `%02d:%02d:%02d,%03d` string built from the
floor-formula fields, whose minute, second and millisecond fields lie in
0..59, 0..59 and 0..999 while the hour field is unbounded (widening past
two digits, e.g. at 360000 s); under binary64 float arithmetic
`format_time 4000.0 = 01:06:40,000` but `format_time 5.007` prints
millisecond field `006`, not `007`. -/
theorem claim_C1_format_time_fields (q : ℚ) (h : 0 ≤ q) :
    (format_time q
        = formatIntPad ⌊q / 3600⌋ 2 ++ ":"
          ++ formatIntPad ⌊pyMod q 3600 / 60⌋ 2 ++ ":"
          ++ formatIntPad ⌊pyMod q 60⌋ 2 ++ ","
          ++ formatIntPad ⌊(q - (⌊q⌋ : ℚ)) * 1000⌋ 3)
      ∧ (0 ≤ ⌊pyMod q 3600 / 60⌋ ∧ ⌊pyMod q 3600 / 60⌋ ≤ 59)
      ∧ (0 ≤ ⌊pyMod q 60⌋ ∧ ⌊pyMod q 60⌋ ≤ 59)
      ∧ (0 ≤ ⌊(q - (⌊q⌋ : ℚ)) * 1000⌋ ∧ ⌊(q - (⌊q⌋ : ℚ)) * 1000⌋ ≤ 999)
      ∧ format_time_fl 4000 = "01:06:40,000"
      ∧ format_time_fl 360000 = "100:00:00,000"
      ∧ format_time_fl (roundD (5007 / 1000)) = "00:00:05,006" :=
  ⟨format_time_shape h, ⟨minutes_nonneg q, minutes_le q⟩,
    ⟨secs_nonneg q, secs_le q⟩, ⟨millis_nonneg q, millis_le q⟩,
    fl_4000, fl_360000, fl_5007⟩

theorem claim_C1_format_time_fields_witness :
    (0 : ℚ) ≤ 0
      ∧ (0 ≤ ⌊pyMod (0 : ℚ) 3600 / 60⌋ ∧ ⌊pyMod (0 : ℚ) 3600 / 60⌋ ≤ 59) :=
  ⟨le_refl 0, (claim_C1_format_time_fields 0 (le_refl 0)).2.1⟩

/-- C4: at the second boundaries no field rolls past its range —
`format_time 59.9995` prints `00:00:59,999` (neither `60` seconds nor
`1000` milliseconds) and `format_time 3599.999` prints `00:59:59,998`,
not `01:00:00,000` — and for every finite binary64 value
`q = m * 2 ^ t` (`|m| < 2^53`) with `q ≥ 0`, the millisecond integer the
program computes — with the subtraction and the multiplication by 1000
each rounded, exactly as in `format_time_fl` — is strictly below 1000. -/
theorem claim_C4_no_rollover (q : ℚ) (m t : ℤ) (h : 0 ≤ q)
    (hm : m.natAbs < 2 ^ 53) (hq : q = (m : ℚ) * 2 ^ t) :
    format_time_fl (roundD (119999 / 2000)) = "00:00:59,999"
      ∧ format_time_fl (roundD (3599999 / 1000)) = "00:59:59,998"
      ∧ format_time_fl (roundD (3599999 / 1000)) ≠ "01:00:00,000"
      ∧ pyTrunc (roundD (roundD (q - roundD (pyTrunc q : ℚ)) * 1000))
        < 1000 := by
  refine ⟨fl_599995, fl_3599999, ?_, fl_millis_lt h m t hm hq⟩
  rw [fl_3599999]
  decide

theorem claim_C4_no_rollover_witness :
    ((0 : ℚ) ≤ 0 ∧ (0 : ℤ).natAbs < 2 ^ 53
        ∧ (0 : ℚ) = ((0 : ℤ) : ℚ) * 2 ^ (0 : ℤ))
      ∧ pyTrunc (roundD (roundD ((0 : ℚ)
          - roundD (pyTrunc (0 : ℚ) : ℚ)) * 1000)) < 1000 :=
  ⟨⟨le_refl 0, by decide, by simp⟩,
    (claim_C4_no_rollover 0 0 0 (le_refl 0) (by decide) (by simp)).2.2.2⟩

/-- C8: `format_time` is total on every finite float, negative values
included — none of its four fallible primitives can raise (their
divisors are the nonzero literals 3600 and 60) — and `save_srt` returns
a string (never raises) when every segment carries all three keys. -/
theorem claim_C8_total (q : ℚ) (segs : List SegmentDict)
    (h : ∀ seg ∈ segs,
      seg.start.isSome ∧ seg.«end».isSome ∧ seg.text.isSome) :
    format_timeE q = some (format_time q)
      ∧ (save_srt_dict segs).isSome := by
  constructor
  · unfold format_timeE pyFloorDivE pyModE
    have h3600 : ((3600 : ℚ) = 0) = False := by norm_num
    have h60 : ((60 : ℚ) = 0) = False := by norm_num
    simp only [h3600, h60, if_false]
    rfl
  · exact save_srtD_isSome segs h 1

theorem claim_C8_total_witness :
    (∀ seg ∈ ([⟨some 0, some 1, some "x"⟩] : List SegmentDict),
        seg.start.isSome ∧ seg.«end».isSome ∧ seg.text.isSome)
      ∧ format_timeE (-(1 / 2)) = some (format_time (-(1 / 2)))
      ∧ (save_srt_dict [⟨some 0, some 1, some "x"⟩]).isSome := by
  have hseg : ∀ seg ∈ ([⟨some 0, some 1, some "x"⟩] : List SegmentDict),
      seg.start.isSome ∧ seg.«end».isSome ∧ seg.text.isSome := by
    intro seg hs
    rw [List.mem_singleton] at hs
    subst hs
    exact ⟨rfl, rfl, rfl⟩
  obtain ⟨h1, h2⟩ :=
    claim_C8_total (-(1 / 2)) [⟨some 0, some 1, some "x"⟩] hseg
  exact ⟨hseg, h1, h2⟩

/-- C9: if any segment lacks one of the keys `start`, `end` or `text`,
`save_srt` raises a key-lookup error (modelled `none`) instead of
substituting a default or handing its caller a partial document. -/
theorem claim_C9_missing_key (segs : List SegmentDict) (j : Nat)
    (hj : j < segs.length)
    (h : (segs.get ⟨j, hj⟩).start = none ∨ (segs.get ⟨j, hj⟩).«end» = none
      ∨ (segs.get ⟨j, hj⟩).text = none) :
    save_srt_dict segs = none :=
  save_srtD_none segs 1 j hj h

theorem claim_C9_missing_key_witness :
    0 < ([⟨none, some 0, some ""⟩] : List SegmentDict).length
      ∧ save_srt_dict [⟨none, some 0, some ""⟩] = none :=
  ⟨by decide,
    claim_C9_missing_key [⟨none, some 0, some ""⟩] 0 (by decide) (Or.inl rfl)⟩

/-- C10: on the negative input -0.5 the formatter produces
`-1:59:59,-500` — hours use floor division (giving -1) while the
millisecond field truncates toward zero (giving -500) — a string that
does not match the fixed-width `HH:MM:SS,mmm` clock shape at all. -/
theorem claim_C10_negative_shape :
    format_time_fl (-(1 / 2)) = "-1:59:59,-500"
      ∧ isClockShape (format_time_fl (-(1 / 2))) = false := by
  refine ⟨fl_neg_half, ?_⟩
  rw [fl_neg_half]
  decide
